import Mathlib

/-!
Verification of the premonition repository: a type-tag registry
(`registry.go`) and a two-phase decode pipeline (`decode.go`) that turns a
stream of self-describing YAML/JSON documents into typed objects.

The embedding is shallow: Go structs become Lean structures, the
`map[TypeMeta]reflect.Type` registry becomes an association list with
first-binding lookup, `reflect.Type` values become the `RType` inductive,
fallible Go functions return `Except`, and the external
`yaml.NewYAMLOrJSONDecoder` is abstracted as a list of already-split
document events (`StreamItem`).
-/

/-- TypeMeta contains the metadata required to identify the type of an
object (types.go). Its only field is the type-name string; two tags are
equal iff their names are equal, which the derived equality gives. -/
structure TypeMeta where
  TypeName : String
deriving DecidableEq, Repr

/-- RType models a Go `reflect.Type` as far as registry.go inspects one:
a type is a pointer type with an element type, a named struct type
identified by its package path and name (what `registerObject` stores and
compares, and what the conflict message prints via `PkgPath()`/`Name()`),
or some other kind of type. -/
inductive RType where
  | ptr (elem : RType)
  | structT (pkgPath : String) (name : String)
  | other (descr : String)
deriving DecidableEq, Repr

/-- ObjectRegistry is a map from the type metadata of an object to its
actual Go type (registry.go). Modelled as an association list; `rlookup`
returns the first binding, `rupdate` overwrites it, so the list behaves
exactly like the Go map. -/
abbrev ObjectRegistry := List (TypeMeta × RType)

/-- rlookup models `r[meta]`: the value of the first binding for the key,
if any. -/
def rlookup (r : ObjectRegistry) (meta : TypeMeta) : Option RType :=
  match r with
  | [] => none
  | (k, v) :: rest => if k = meta then some v else rlookup rest meta

/-- rupdate models `r[meta] = t`: replace the first binding for the key,
or append a new binding when none exists. -/
def rupdate (r : ObjectRegistry) (meta : TypeMeta) (t : RType) : ObjectRegistry :=
  match r with
  | [] => [(meta, t)]
  | (k, v) :: rest => if k = meta then (meta, t) :: rest else (k, v) :: rupdate rest meta t

/-- RegError enumerates the registration-time errors of registry.go:
`errTypeNameMissing`, `errInvalidType`, and the formatted double-registration
error, which carries the tag and both the existing and the attempted
struct type (the Go message prints both via `PkgPath()`/`Name()`). -/
inductive RegError where
  | missingTypeName
  | invalidType
  | conflicting (meta : TypeMeta) (oldT : RType) (newT : RType)
deriving DecidableEq, Repr

/-- registerObject contains the actual logic for registering an Object in
an ObjectRegistry (registry.go lines 31-53). The Go function mutates the
map; here it returns the result together with the registry after the call.
`obj` is the dynamic type of the Go `Object` argument (`reflect.TypeOf(obj)`):
it must be a pointer to a struct, and the element struct type is stored. -/
def registerObject (meta : TypeMeta) (obj : RType) (r : ObjectRegistry) :
    Except RegError Unit × ObjectRegistry :=
  if meta.TypeName = "" then
    (Except.error RegError.missingTypeName, r)
  else
    match obj with
    | RType.ptr t =>
      match t with
      | RType.structT p n =>
        match rlookup r meta with
        | some oldT =>
          if oldT = RType.structT p n then
            (Except.ok (), rupdate r meta (RType.structT p n))
          else
            (Except.error (RegError.conflicting meta oldT (RType.structT p n)), r)
        | none => (Except.ok (), rupdate r meta (RType.structT p n))
      | _ => (Except.error RegError.invalidType, r)
    | _ => (Except.error RegError.invalidType, r)

/-- MustRegisterResult is the observable outcome of `MustRegisterObject`:
either the process panicked with a registration error, or the object was
registered and the registry has the given contents. -/
inductive MustRegisterResult where
  | panicked (e : RegError)
  | registered (r : ObjectRegistry)
deriving DecidableEq, Repr

/-- MustRegisterObject registers an object and panics when the checked
registration fails (registry.go lines 24-28). The Go function uses the
global `Registry`; the state is passed explicitly here. -/
def MustRegisterObject (meta : TypeMeta) (obj : RType) (r : ObjectRegistry) :
    MustRegisterResult :=
  match registerObject meta obj r with
  | (Except.error e, _) => MustRegisterResult.panicked e
  | (Except.ok _, r2) => MustRegisterResult.registered r2

/-- isPtrToStruct is the shape check of registerObject (registry.go lines
36-43): the dynamic type is a pointer whose element type is a struct. -/
def isPtrToStruct : RType → Bool
  | RType.ptr (RType.structT _ _) => true
  | _ => false

/-- Lookup after an update at the same key returns the new value. -/
theorem rlookup_rupdate_self (r : ObjectRegistry) (meta : TypeMeta) (t : RType) :
    rlookup (rupdate r meta t) meta = some t := by
  induction r with
  | nil => simp [rupdate, rlookup]
  | cons kv rest ih =>
    obtain ⟨k, v⟩ := kv
    by_cases hk : k = meta
    · simp [rupdate, rlookup, hk]
    · simp [rupdate, rlookup, hk, ih]

/-- Lookup after an update at a different key is unchanged. -/
theorem rlookup_rupdate_ne (r : ObjectRegistry) (meta m2 : TypeMeta) (t : RType)
    (h : m2 ≠ meta) : rlookup (rupdate r meta t) m2 = rlookup r m2 := by
  have hne : ¬ (meta = m2) := fun hh => h hh.symm
  induction r with
  | nil => simp [rupdate, rlookup, hne]
  | cons kv rest ih =>
    obtain ⟨k, v⟩ := kv
    by_cases hk : k = meta
    · subst hk
      simp [rupdate, rlookup, hne]
    · simp [rupdate, rlookup, hk, ih]

/-- Updating a key with the value it already has leaves the list itself
unchanged (the idempotent re-registration case). -/
theorem rupdate_idem (r : ObjectRegistry) (meta : TypeMeta) (t : RType)
    (h : rlookup r meta = some t) : rupdate r meta t = r := by
  induction r with
  | nil => simp [rlookup] at h
  | cons kv rest ih =>
    obtain ⟨k, v⟩ := kv
    by_cases hk : k = meta
    · subst hk
      simp [rlookup] at h
      simp [rupdate, h]
    · simp [rlookup, hk] at h
      simp [rupdate, hk, ih h]

/-- JValue is the canonical structured-data representation of one document.
The external `yaml.NewYAMLOrJSONDecoder` normalizes every surface syntax to
JSON before the pipeline sees it, so a raw document is a JSON value. -/
inductive JValue where
  | null
  | bool (b : Bool)
  | num (n : Int)
  | str (s : String)
  | arr (elems : List JValue)
  | obj (fields : List (String × JValue))

/-- Apple is an example object (objects.go): an inline embedded TypeMeta
and a `color` string field. -/
structure Apple where
  typeMeta : TypeMeta
  Color : String
deriving DecidableEq, Repr

/-- Banana is an example object (objects.go): an inline embedded TypeMeta
and a `ripe` boolean field. -/
structure Banana where
  typeMeta : TypeMeta
  Ripe : Bool
deriving DecidableEq, Repr

/-- Obj is the universe of decodable object values: the repository's two
concrete shapes, plus a `generic` case standing for an instance of any
other registered struct type, of which only the embedded TypeMeta (the
part every `Object` must have) is modelled. -/
inductive Obj where
  | apple (a : Apple)
  | banana (b : Banana)
  | generic (t : RType) (typeMeta : TypeMeta)
deriving DecidableEq, Repr

/-- decodeTypeMetaFields models `json.Unmarshal` of a JSON object's fields
into a `TypeMeta`: the `type_name` key must hold a string (a JSON null
leaves the field alone, as in encoding/json); every other key is ignored;
a later duplicate key overwrites an earlier one. -/
def decodeTypeMetaFields : List (String × JValue) → TypeMeta → Except String TypeMeta
  | [], meta => Except.ok meta
  | (k, v) :: rest, meta =>
    if k = "type_name" then
      match v with
      | JValue.str s => decodeTypeMetaFields rest (TypeMeta.mk s)
      | JValue.null => decodeTypeMetaFields rest meta
      | _ => Except.error "json: cannot unmarshal value into Go struct field TypeMeta.type_name of type string"
    else decodeTypeMetaFields rest meta

/-- unmarshalTypeMeta models `json.Unmarshal(data, &meta)` for a zero
`TypeMeta`: a JSON object is decoded field by field, a JSON null leaves the
zero value, and any other JSON value cannot be unmarshalled into a struct. -/
def unmarshalTypeMeta : JValue → Except String TypeMeta
  | JValue.obj fields => decodeTypeMetaFields fields (TypeMeta.mk "")
  | JValue.null => Except.ok (TypeMeta.mk "")
  | _ => Except.error "json: cannot unmarshal value into Go value of type main.TypeMeta"

/-- decodeAppleFields models `json.Unmarshal` of a JSON object's fields
into an `Apple`: `type_name` (promoted from the embedded TypeMeta) must be
a string and `color` must be a string; nulls are skipped, unknown keys are
ignored, later duplicates overwrite. -/
def decodeAppleFields : List (String × JValue) → Apple → Except String Apple
  | [], a => Except.ok a
  | (k, v) :: rest, a =>
    if k = "type_name" then
      match v with
      | JValue.str s => decodeAppleFields rest { a with typeMeta := TypeMeta.mk s }
      | JValue.null => decodeAppleFields rest a
      | _ => Except.error "json: cannot unmarshal value into Go struct field Apple.type_name of type string"
    else if k = "color" then
      match v with
      | JValue.str s => decodeAppleFields rest { a with Color := s }
      | JValue.null => decodeAppleFields rest a
      | _ => Except.error "json: cannot unmarshal value into Go struct field Apple.color of type string"
    else decodeAppleFields rest a

/-- decodeBananaFields models `json.Unmarshal` of a JSON object's fields
into a `Banana`: `type_name` must be a string and `ripe` must be a boolean;
nulls are skipped, unknown keys are ignored, later duplicates overwrite. -/
def decodeBananaFields : List (String × JValue) → Banana → Except String Banana
  | [], b => Except.ok b
  | (k, v) :: rest, b =>
    if k = "type_name" then
      match v with
      | JValue.str s => decodeBananaFields rest { b with typeMeta := TypeMeta.mk s }
      | JValue.null => decodeBananaFields rest b
      | _ => Except.error "json: cannot unmarshal value into Go struct field Banana.type_name of type string"
    else if k = "ripe" then
      match v with
      | JValue.bool x => decodeBananaFields rest { b with Ripe := x }
      | JValue.null => decodeBananaFields rest b
      | _ => Except.error "json: cannot unmarshal value into Go struct field Banana.ripe of type bool"
    else decodeBananaFields rest b

/-- unmarshalInto models the full pass `json.Unmarshal(raw, &obj)` into
the freshly allocated instance: the document must be a JSON object (or
null, a no-op) and each known field must have the declared type. For a
`generic` instance, standing for a registered struct type outside this
repository, only the embedded TypeMeta field is modelled and any other
field of the document is treated as ignored. -/
def unmarshalInto : Obj → JValue → Except String Obj
  | Obj.apple a, JValue.obj fields => Except.map Obj.apple (decodeAppleFields fields a)
  | Obj.apple a, JValue.null => Except.ok (Obj.apple a)
  | Obj.apple _, _ => Except.error "json: cannot unmarshal value into Go value of type main.Apple"
  | Obj.banana b, JValue.obj fields => Except.map Obj.banana (decodeBananaFields fields b)
  | Obj.banana b, JValue.null => Except.ok (Obj.banana b)
  | Obj.banana _, _ => Except.error "json: cannot unmarshal value into Go value of type main.Banana"
  | Obj.generic t m, JValue.obj fields => Except.map (Obj.generic t) (decodeTypeMetaFields fields m)
  | Obj.generic t m, JValue.null => Except.ok (Obj.generic t m)
  | Obj.generic _ _, _ => Except.error "json: cannot unmarshal value into Go struct value"

/-- newObject models `reflect.New(t).Interface().(Object)`: a fresh,
zero-valued instance of the registered struct type. -/
def newObject : RType → Obj
  | RType.structT "main" "Apple" => Obj.apple (Apple.mk (TypeMeta.mk "") "")
  | RType.structT "main" "Banana" => Obj.banana (Banana.mk (TypeMeta.mk "") false)
  | t => Obj.generic t (TypeMeta.mk "")

/-- DecodeError enumerates the decode-time failures of decode.go, each
carrying exactly what the corresponding `fmt.Errorf` interpolates:
a stream decoder failure ("unable to decode object: ..."), an envelope
parse failure ("could not find type_name, json parse error: ..."), an
unknown type ("no registered type found for object with type name: ..."),
and a full-pass failure ("unable to unmarshal object: ..."). -/
inductive DecodeError where
  | streamError (msg : String)
  | malformedDocument (msg : String)
  | unknownType (typeName : String)
  | fieldError (msg : String)
deriving DecidableEq, Repr

/-- findObject attempts to find the `type_name` field in a serialized JSON
object and uses that information to look up the runtime type of the object
in an ObjectRegistry (decode.go lines 260-272). -/
def findObject (data : JValue) (reg : ObjectRegistry) : Except DecodeError Obj :=
  match unmarshalTypeMeta data with
  | Except.error msg => Except.error (DecodeError.malformedDocument msg)
  | Except.ok meta =>
    match rlookup reg meta with
    | none => Except.error (DecodeError.unknownType meta.TypeName)
    | some t => Except.ok (newObject t)

/-- StreamItem models one `dec.Decode(&raw)` outcome of the external
`yaml.NewYAMLOrJSONDecoder`: either the next raw document, already
normalized to JSON, or a decoder error (malformed surface syntax, I/O
failure); the end of the list is the decoder reporting `io.EOF`. -/
inductive StreamItem where
  | doc (raw : JValue)
  | failure (msg : String)

/-- decodeWithRegistry contains the actual logic for decoding objects from
a stream (decode.go lines 225-255): for each raw document, find the
registered type and allocate an instance (`findObject`), unmarshal the
whole document into it, and append it to the output; the first failure of
any step aborts the whole decode with that error and no objects. -/
def decodeWithRegistry : List StreamItem → ObjectRegistry → Except DecodeError (List Obj)
  | [], _ => Except.ok []
  | StreamItem.failure msg :: _, _ =>
    Except.error (DecodeError.streamError ("unable to decode object: " ++ msg))
  | StreamItem.doc raw :: rest, reg =>
    match findObject raw reg with
    | Except.error e => Except.error e
    | Except.ok obj =>
      match unmarshalInto obj raw with
      | Except.error msg => Except.error (DecodeError.fieldError ("unable to unmarshal object: " ++ msg))
      | Except.ok obj2 =>
        match decodeWithRegistry rest reg with
        | Except.error e => Except.error e
        | Except.ok objs => Except.ok (obj2 :: objs)

/-- AppleTypeMeta is the type information for an Apple object (objects.go). -/
def AppleTypeMeta : TypeMeta := TypeMeta.mk "Apple"

/-- BananaTypeMeta is the type information for a Banana object (objects.go). -/
def BananaTypeMeta : TypeMeta := TypeMeta.mk "Banana"

/-- appleStructT is the reflected struct type of `main.Apple`. -/
def appleStructT : RType := RType.structT "main" "Apple"

/-- bananaStructT is the reflected struct type of `main.Banana`. -/
def bananaStructT : RType := RType.structT "main" "Banana"

/-- Registry contains the type information for all registered objects:
the state of the global registry after objects.go's `init` has run
`MustRegisterObject(AppleTypeMeta, &Apple\x7b\x7d)` and
`MustRegisterObject(BananaTypeMeta, &Banana\x7b\x7d)` on the empty map. -/
def Registry : ObjectRegistry :=
  (registerObject BananaTypeMeta (RType.ptr bananaStructT)
    (registerObject AppleTypeMeta (RType.ptr appleStructT) []).2).2

/-- Decode decodes objects from a stream until it encounters an EOF, using
the global object registry (decode.go lines 219-221). -/
def Decode (items : List StreamItem) : Except DecodeError (List Obj) :=
  decodeWithRegistry items Registry

/-- docProcess is the body of the decode loop for one raw document:
envelope pass and registry lookup (`findObject`), then the full
unmarshal pass into the fresh instance. -/
def docProcess (reg : ObjectRegistry) (raw : JValue) : Except DecodeError Obj :=
  match findObject raw reg with
  | Except.error e => Except.error e
  | Except.ok obj =>
    match unmarshalInto obj raw with
    | Except.error msg => Except.error (DecodeError.fieldError ("unable to unmarshal object: " ++ msg))
    | Except.ok obj2 => Except.ok obj2

/-- itemStep is the outcome of processing one stream event: a decoder
failure aborts with the wrapped stream error, a document is processed by
`docProcess`. -/
def itemStep (reg : ObjectRegistry) : StreamItem → Except DecodeError Obj
  | StreamItem.failure msg =>
    Except.error (DecodeError.streamError ("unable to decode object: " ++ msg))
  | StreamItem.doc raw => docProcess reg raw

/-- C1: for every tag and distinct struct shapes S1 and S2, once
registering the tag to S1 has succeeded, registering the same tag to S2
fails with the conflicting-registration error naming both the existing and
the attempted shape and leaves the registry unchanged, while registering
the tag to S1 a second time succeeds and leaves the registry mapping
unchanged (idempotent no-op). -/
theorem registerObject_uniqueness (meta : TypeMeta) (p1 n1 p2 n2 : String)
    (r : ObjectRegistry)
    (hne : RType.structT p1 n1 ≠ RType.structT p2 n2)
    (h1 : (registerObject meta (RType.ptr (RType.structT p1 n1)) r).1 = Except.ok ()) :
    registerObject meta (RType.ptr (RType.structT p2 n2))
        (registerObject meta (RType.ptr (RType.structT p1 n1)) r).2 =
      (Except.error (RegError.conflicting meta (RType.structT p1 n1) (RType.structT p2 n2)),
        (registerObject meta (RType.ptr (RType.structT p1 n1)) r).2) ∧
    registerObject meta (RType.ptr (RType.structT p1 n1))
        (registerObject meta (RType.ptr (RType.structT p1 n1)) r).2 =
      (Except.ok (), (registerObject meta (RType.ptr (RType.structT p1 n1)) r).2) := by
  by_cases hm : meta.TypeName = ""
  · simp [registerObject, hm] at h1
  · have hr2 : (registerObject meta (RType.ptr (RType.structT p1 n1)) r).2 =
        rupdate r meta (RType.structT p1 n1) := by
      cases hl : rlookup r meta with
      | none => simp [registerObject, hm, hl]
      | some oldT =>
        by_cases he : oldT = RType.structT p1 n1
        · subst he
          simp [registerObject, hm, hl]
        · simp [registerObject, hm, hl, he] at h1
    rw [hr2]
    refine ⟨?_, ?_⟩
    · simp [registerObject, hm, rlookup_rupdate_self, hne]
    · simp [registerObject, hm, rlookup_rupdate_self,
        rupdate_idem _ _ _ (rlookup_rupdate_self r meta (RType.structT p1 n1))]

/-- Witness for C1 at a concrete input: the tag "Fruit" registered to
main.Apple, then to main.Banana. -/
theorem registerObject_uniqueness_witness :
    (RType.structT "main" "Apple" ≠ RType.structT "main" "Banana") ∧
    (registerObject (TypeMeta.mk "Fruit") (RType.ptr (RType.structT "main" "Apple")) []).1 =
      Except.ok () ∧
    (registerObject (TypeMeta.mk "Fruit") (RType.ptr (RType.structT "main" "Banana"))
        (registerObject (TypeMeta.mk "Fruit") (RType.ptr (RType.structT "main" "Apple")) []).2 =
      (Except.error (RegError.conflicting (TypeMeta.mk "Fruit") (RType.structT "main" "Apple")
          (RType.structT "main" "Banana")),
        (registerObject (TypeMeta.mk "Fruit") (RType.ptr (RType.structT "main" "Apple")) []).2) ∧
    registerObject (TypeMeta.mk "Fruit") (RType.ptr (RType.structT "main" "Apple"))
        (registerObject (TypeMeta.mk "Fruit") (RType.ptr (RType.structT "main" "Apple")) []).2 =
      (Except.ok (), (registerObject (TypeMeta.mk "Fruit") (RType.ptr (RType.structT "main" "Apple")) []).2)) :=
  ⟨by decide, rfl,
    registerObject_uniqueness (TypeMeta.mk "Fruit") "main" "Apple" "main" "Banana" []
      (by decide) rfl⟩

/-- C6: registering a tag whose type name is the empty string always fails
with the missing-type-name error, for every shape argument and every
registry, and `MustRegisterObject` panics with that error in that case. -/
theorem registerObject_emptyName (meta : TypeMeta) (obj : RType) (r : ObjectRegistry)
    (h : meta.TypeName = "") :
    registerObject meta obj r = (Except.error RegError.missingTypeName, r) ∧
    MustRegisterObject meta obj r = MustRegisterResult.panicked RegError.missingTypeName := by
  simp [registerObject, MustRegisterObject, h]

/-- Witness for C6 at a concrete input: the empty tag with the
pointer-to-struct shape main.Apple on the empty registry. -/
theorem registerObject_emptyName_witness :
    (TypeMeta.mk "").TypeName = "" ∧
    (registerObject (TypeMeta.mk "") (RType.ptr (RType.structT "main" "Apple")) [] =
        (Except.error RegError.missingTypeName, []) ∧
      MustRegisterObject (TypeMeta.mk "") (RType.ptr (RType.structT "main" "Apple")) [] =
        MustRegisterResult.panicked RegError.missingTypeName) :=
  ⟨rfl, registerObject_emptyName (TypeMeta.mk "") (RType.ptr (RType.structT "main" "Apple")) [] rfl⟩

/-- C7: registering a shape whose dynamic type is not a pointer to a
struct fails with the invalid-type error, for every tag with a non-empty
type name and every registry, and leaves the registry unchanged. -/
theorem registerObject_invalidShape (meta : TypeMeta) (obj : RType) (r : ObjectRegistry)
    (hname : meta.TypeName ≠ "") (hshape : isPtrToStruct obj = false) :
    registerObject meta obj r = (Except.error RegError.invalidType, r) := by
  cases obj with
  | ptr t =>
    cases t with
    | structT p n => simp [isPtrToStruct] at hshape
    | ptr e2 => simp [registerObject, hname]
    | other d => simp [registerObject, hname]
  | structT p n => simp [registerObject, hname]
  | other d => simp [registerObject, hname]

/-- Witness for C7 at a concrete input: the tag "X" with the non-struct
type `int`. -/
theorem registerObject_invalidShape_witness :
    (TypeMeta.mk "X").TypeName ≠ "" ∧ isPtrToStruct (RType.other "int") = false ∧
    registerObject (TypeMeta.mk "X") (RType.other "int") [] =
      (Except.error RegError.invalidType, []) :=
  ⟨by decide, by decide,
    registerObject_invalidShape (TypeMeta.mk "X") (RType.other "int") [] (by decide) (by decide)⟩

/-- C9: registration is atomic on failure: whenever registerObject returns
an error, the registry after the call is exactly the registry before it. -/
theorem registerObject_atomic (meta : TypeMeta) (obj : RType) (r : ObjectRegistry)
    (e : RegError) (h : (registerObject meta obj r).1 = Except.error e) :
    (registerObject meta obj r).2 = r := by
  by_cases hm : meta.TypeName = ""
  · simp [registerObject, hm]
  · cases obj with
    | ptr t =>
      cases t with
      | structT p n =>
        cases hl : rlookup r meta with
        | none => simp [registerObject, hm, hl] at h
        | some oldT =>
          by_cases he : oldT = RType.structT p n
          · simp [registerObject, hm, hl, he] at h
          · simp [registerObject, hm, hl, he]
      | ptr e2 => simp [registerObject, hm]
      | other d => simp [registerObject, hm]
    | structT p n => simp [registerObject, hm]
    | other d => simp [registerObject, hm]

/-- Witness for C9 at a concrete input: a failing registration (missing
type name) leaves the empty registry empty. -/
theorem registerObject_atomic_witness :
    (registerObject (TypeMeta.mk "") (RType.other "int") []).1 =
      Except.error RegError.missingTypeName ∧
    (registerObject (TypeMeta.mk "") (RType.other "int") []).2 = [] :=
  ⟨rfl,
    registerObject_atomic (TypeMeta.mk "") (RType.other "int") [] RegError.missingTypeName rfl⟩

/-- Unfolding the decode loop at a document event: the loop body is
`docProcess`, and the result is prepended to the decode of the rest. -/
theorem decode_cons_doc (reg : ObjectRegistry) (raw : JValue) (rest : List StreamItem) :
    decodeWithRegistry (StreamItem.doc raw :: rest) reg =
      match docProcess reg raw with
      | Except.error e => Except.error e
      | Except.ok o =>
        match decodeWithRegistry rest reg with
        | Except.error e => Except.error e
        | Except.ok objs => Except.ok (o :: objs) := by
  cases hf : findObject raw reg with
  | error e => simp [decodeWithRegistry, docProcess, hf]
  | ok obj =>
    cases hu : unmarshalInto obj raw with
    | error m => simp [decodeWithRegistry, docProcess, hf, hu]
    | ok o2 => simp [decodeWithRegistry, docProcess, hf, hu]

/-- A stream event whose step fails makes the whole decode of any stream
starting with it return that error. -/
theorem decode_cons_error (reg : ObjectRegistry) (item : StreamItem)
    (rest : List StreamItem) (e : DecodeError)
    (hfail : itemStep reg item = Except.error e) :
    decodeWithRegistry (item :: rest) reg = Except.error e := by
  cases item with
  | failure msg =>
    simp only [itemStep] at hfail
    simpa [decodeWithRegistry] using hfail
  | doc raw =>
    simp only [itemStep] at hfail
    simp [decode_cons_doc, hfail]

/-- A run of documents that all process successfully contributes its
objects, in order, in front of whatever the rest of the stream decodes to;
an error in the rest is propagated unchanged. -/
theorem decode_ok_run (reg : ObjectRegistry) (docs : List JValue) (objs : List Obj)
    (rest : List StreamItem)
    (h : List.Forall₂ (fun d o => docProcess reg d = Except.ok o) docs objs) :
    decodeWithRegistry (List.map StreamItem.doc docs ++ rest) reg =
      match decodeWithRegistry rest reg with
      | Except.error e => Except.error e
      | Except.ok tail => Except.ok (objs ++ tail) := by
  induction h with
  | nil =>
    simp only [List.map_nil, List.nil_append]
    cases decodeWithRegistry rest reg <;> simp
  | @cons d o ds os hd htail ih =>
    simp only [List.map_cons, List.cons_append, decode_cons_doc, hd, ih]
    cases decodeWithRegistry rest reg <;> simp

/-- A JSON object without a `type_name` key decodes as a TypeMeta to
whatever value the field already holds. -/
theorem decodeTypeMetaFields_no_key (fields : List (String × JValue)) (meta : TypeMeta)
    (hf : ¬ ("type_name" ∈ List.map Prod.fst fields)) :
    decodeTypeMetaFields fields meta = Except.ok meta := by
  induction fields generalizing meta with
  | nil => rfl
  | cons kv rest ih =>
    obtain ⟨k, v⟩ := kv
    simp only [List.map_cons, List.mem_cons] at hf
    push_neg at hf
    obtain ⟨hk, hrest⟩ := hf
    simp [decodeTypeMetaFields, Ne.symm hk, ih _ hrest]

/-- appleRedDoc is the first document of main.go's input stream:
`type_name: Apple, color: Red`, normalized to JSON. -/
def appleRedDoc : JValue :=
  JValue.obj [("type_name", JValue.str "Apple"), ("color", JValue.str "Red")]

/-- bananaRipeDoc is the second document of main.go's input stream:
`type_name: Banana, ripe: true`, normalized to JSON. -/
def bananaRipeDoc : JValue :=
  JValue.obj [("type_name", JValue.str "Banana"), ("ripe", JValue.bool true)]

/-- cherryDoc is the unknown-type scenario document of the spec:
`type_name: Cherry, size: small`, where Cherry is never registered. -/
def cherryDoc : JValue :=
  JValue.obj [("type_name", JValue.str "Cherry"), ("size", JValue.str "small")]

/-- C2: decoding a stream of documents that all process successfully
succeeds and returns exactly one object per document, the i-th output
being the object decoded from the i-th document, for every length
including zero (the empty stream yields the empty sequence and no error). -/
theorem decode_orderPreservation (reg : ObjectRegistry) (docs : List JValue)
    (objs : List Obj)
    (h : List.Forall₂ (fun d o => docProcess reg d = Except.ok o) docs objs) :
    decodeWithRegistry (List.map StreamItem.doc docs) reg = Except.ok objs ∧
    objs.length = docs.length := by
  refine ⟨?_, (List.Forall₂.length_eq h).symm⟩
  have h2 := decode_ok_run reg docs objs [] h
  simpa [decodeWithRegistry] using h2

/-- Witness for C2 at a concrete input: main.go's two-document stream
decodes to the red Apple followed by the ripe Banana. -/
theorem decode_orderPreservation_witness :
    List.Forall₂ (fun d o => docProcess Registry d = Except.ok o)
      [appleRedDoc, bananaRipeDoc]
      [Obj.apple (Apple.mk AppleTypeMeta "Red"), Obj.banana (Banana.mk BananaTypeMeta true)] ∧
    (decodeWithRegistry (List.map StreamItem.doc [appleRedDoc, bananaRipeDoc]) Registry =
        Except.ok [Obj.apple (Apple.mk AppleTypeMeta "Red"),
          Obj.banana (Banana.mk BananaTypeMeta true)] ∧
      ([Obj.apple (Apple.mk AppleTypeMeta "Red"),
        Obj.banana (Banana.mk BananaTypeMeta true)] : List Obj).length =
        ([appleRedDoc, bananaRipeDoc] : List JValue).length) := by
  have hQ : List.Forall₂ (fun d o => docProcess Registry d = Except.ok o)
      [appleRedDoc, bananaRipeDoc]
      [Obj.apple (Apple.mk AppleTypeMeta "Red"), Obj.banana (Banana.mk BananaTypeMeta true)] :=
    List.Forall₂.cons rfl (List.Forall₂.cons rfl List.Forall₂.nil)
  exact ⟨hQ, decode_orderPreservation Registry _ _ hQ⟩

/-- C5: decode is all-or-nothing: when every document before some stream
event processes successfully and that event's step fails with an error,
the whole decode returns exactly that first error, with no objects (the
error alternative of Except carries no partial sequence). -/
theorem decode_allOrNothing (reg : ObjectRegistry) (docs : List JValue) (objs : List Obj)
    (item : StreamItem) (rest : List StreamItem) (e : DecodeError)
    (hpre : List.Forall₂ (fun d o => docProcess reg d = Except.ok o) docs objs)
    (hfail : itemStep reg item = Except.error e) :
    decodeWithRegistry (List.map StreamItem.doc docs ++ item :: rest) reg =
      Except.error e := by
  rw [decode_ok_run reg docs objs _ hpre, decode_cons_error reg item rest e hfail]

/-- Witness for C5 at a concrete input: a good Apple document followed by
a document holding an unregistered Cherry tag and then another good
document; decode returns the unknown-type error and no objects. -/
theorem decode_allOrNothing_witness :
    List.Forall₂ (fun d o => docProcess Registry d = Except.ok o)
      [appleRedDoc] [Obj.apple (Apple.mk AppleTypeMeta "Red")] ∧
    itemStep Registry (StreamItem.doc cherryDoc) =
      Except.error (DecodeError.unknownType "Cherry") ∧
    decodeWithRegistry
        (List.map StreamItem.doc [appleRedDoc] ++
          StreamItem.doc cherryDoc :: [StreamItem.doc bananaRipeDoc]) Registry =
      Except.error (DecodeError.unknownType "Cherry") := by
  have hQ : List.Forall₂ (fun d o => docProcess Registry d = Except.ok o)
      [appleRedDoc] [Obj.apple (Apple.mk AppleTypeMeta "Red")] :=
    List.Forall₂.cons rfl List.Forall₂.nil
  exact ⟨hQ, rfl, decode_allOrNothing Registry _ _ _ _ _ hQ rfl⟩

/-- C4: when every document before some document processes successfully
and that document's envelope pass yields a tag that is not in the
registry, decode fails with the unknown-type error naming that tag's type
name and returns no objects, whatever documents follow the offending one. -/
theorem decode_unknownType (reg : ObjectRegistry) (docs : List JValue) (objs : List Obj)
    (bad : JValue) (meta : TypeMeta) (rest : List StreamItem)
    (hpre : List.Forall₂ (fun d o => docProcess reg d = Except.ok o) docs objs)
    (henv : unmarshalTypeMeta bad = Except.ok meta)
    (hunreg : rlookup reg meta = none) :
    decodeWithRegistry (List.map StreamItem.doc docs ++ StreamItem.doc bad :: rest) reg =
      Except.error (DecodeError.unknownType meta.TypeName) := by
  have hdp : docProcess reg bad = Except.error (DecodeError.unknownType meta.TypeName) := by
    simp [docProcess, findObject, henv, hunreg]
  rw [decode_ok_run reg docs objs _ hpre,
    decode_cons_error reg _ rest _ (by simpa [itemStep] using hdp)]

/-- Witness for C4 at a concrete input: the spec's Cherry scenario, with a
well-formed Banana document after the offending one. -/
theorem decode_unknownType_witness :
    List.Forall₂ (fun d o => docProcess Registry d = Except.ok o)
      [appleRedDoc] [Obj.apple (Apple.mk AppleTypeMeta "Red")] ∧
    unmarshalTypeMeta cherryDoc = Except.ok (TypeMeta.mk "Cherry") ∧
    rlookup Registry (TypeMeta.mk "Cherry") = none ∧
    decodeWithRegistry
        (List.map StreamItem.doc [appleRedDoc] ++
          StreamItem.doc cherryDoc :: [StreamItem.doc bananaRipeDoc]) Registry =
      Except.error (DecodeError.unknownType (TypeMeta.mk "Cherry").TypeName) := by
  have hQ : List.Forall₂ (fun d o => docProcess Registry d = Except.ok o)
      [appleRedDoc] [Obj.apple (Apple.mk AppleTypeMeta "Red")] :=
    List.Forall₂.cons rfl List.Forall₂.nil
  exact ⟨hQ, rfl, by decide,
    decode_unknownType Registry _ _ cherryDoc (TypeMeta.mk "Cherry") _ hQ rfl (by decide)⟩

/-- C8 counterexample: the envelope-pass failure error contains no
document position/index. The same malformed document (a JSON array, which
cannot be unmarshalled into a TypeMeta) produces the very same error value
at stream index 0 and at stream index 1, so the error cannot include the
offending document's position. -/
theorem malformed_noPosition_counterexample :
    decodeWithRegistry [StreamItem.doc (JValue.arr [])] Registry =
      Except.error (DecodeError.malformedDocument
        "json: cannot unmarshal value into Go value of type main.TypeMeta") ∧
    decodeWithRegistry [StreamItem.doc appleRedDoc, StreamItem.doc (JValue.arr [])] Registry =
      Except.error (DecodeError.malformedDocument
        "json: cannot unmarshal value into Go value of type main.TypeMeta") ∧
    decodeWithRegistry [StreamItem.doc (JValue.arr [])] Registry =
      decodeWithRegistry [StreamItem.doc appleRedDoc, StreamItem.doc (JValue.arr [])] Registry :=
  ⟨rfl, rfl, rfl⟩

/-- C8 amended: when every document before some document processes
successfully and that document cannot be unmarshalled far enough to
extract the type tag, the whole decode fails with the malformed-document
error carrying the parse failure; the error does not depend on (and so
does not include) the offending document's position in the stream. -/
theorem decode_malformed_aborts (reg : ObjectRegistry) (docs : List JValue)
    (objs : List Obj) (bad : JValue) (msg : String) (rest : List StreamItem)
    (hpre : List.Forall₂ (fun d o => docProcess reg d = Except.ok o) docs objs)
    (henv : unmarshalTypeMeta bad = Except.error msg) :
    decodeWithRegistry (List.map StreamItem.doc docs ++ StreamItem.doc bad :: rest) reg =
      Except.error (DecodeError.malformedDocument msg) := by
  have hdp : docProcess reg bad = Except.error (DecodeError.malformedDocument msg) := by
    simp [docProcess, findObject, henv]
  rw [decode_ok_run reg docs objs _ hpre,
    decode_cons_error reg _ rest _ (by simpa [itemStep] using hdp)]

/-- Witness for the amended C8 at a concrete input: a good Apple document
followed by a JSON array document. -/
theorem decode_malformed_aborts_witness :
    List.Forall₂ (fun d o => docProcess Registry d = Except.ok o)
      [appleRedDoc] [Obj.apple (Apple.mk AppleTypeMeta "Red")] ∧
    unmarshalTypeMeta (JValue.arr []) =
      Except.error "json: cannot unmarshal value into Go value of type main.TypeMeta" ∧
    decodeWithRegistry
        (List.map StreamItem.doc [appleRedDoc] ++ StreamItem.doc (JValue.arr []) :: []) Registry =
      Except.error (DecodeError.malformedDocument
        "json: cannot unmarshal value into Go value of type main.TypeMeta") := by
  have hQ : List.Forall₂ (fun d o => docProcess Registry d = Except.ok o)
      [appleRedDoc] [Obj.apple (Apple.mk AppleTypeMeta "Red")] :=
    List.Forall₂.cons rfl List.Forall₂.nil
  exact ⟨hQ, rfl, decode_malformed_aborts Registry _ _ (JValue.arr []) _ [] hQ rfl⟩

/-- C10: a document that is a well-formed JSON object with no `type_name`
key is not a malformed document: its envelope pass succeeds with the empty
type name; on any registry without a binding for the empty tag the
document then fails with the unknown-type error naming the empty name;
and registration can never create a binding for the empty tag (it
preserves its absence). -/
theorem decode_missingTypeName_unknown (fields : List (String × JValue))
    (reg : ObjectRegistry)
    (hf : ¬ ("type_name" ∈ List.map Prod.fst fields))
    (hreg : rlookup reg (TypeMeta.mk "") = none) :
    unmarshalTypeMeta (JValue.obj fields) = Except.ok (TypeMeta.mk "") ∧
    docProcess reg (JValue.obj fields) = Except.error (DecodeError.unknownType "") ∧
    (∀ (meta : TypeMeta) (obj : RType) (r : ObjectRegistry),
      rlookup r (TypeMeta.mk "") = none →
      rlookup (registerObject meta obj r).2 (TypeMeta.mk "") = none) := by
  have henv : unmarshalTypeMeta (JValue.obj fields) = Except.ok (TypeMeta.mk "") := by
    simp [unmarshalTypeMeta, decodeTypeMetaFields_no_key fields _ hf]
  refine ⟨henv, ?_, ?_⟩
  · simp [docProcess, findObject, henv, hreg]
  · intro meta obj r hr
    by_cases hm : meta.TypeName = ""
    · simp [registerObject, hm, hr]
    · have hne : TypeMeta.mk "" ≠ meta := by
        intro hcontra
        apply hm
        rw [← hcontra]
      cases obj with
      | ptr t =>
        cases t with
        | structT p n =>
          cases hl : rlookup r meta with
          | none =>
            simp [registerObject, hm, hl, rlookup_rupdate_ne r meta _ _ hne, hr]
          | some oldT =>
            by_cases he : oldT = RType.structT p n
            · simp [registerObject, hm, hl, he, rlookup_rupdate_ne r meta _ _ hne, hr]
            · simp [registerObject, hm, hl, he, hr]
        | ptr e2 => simp [registerObject, hm, hr]
        | other d => simp [registerObject, hm, hr]
      | structT p n => simp [registerObject, hm, hr]
      | other d => simp [registerObject, hm, hr]

/-- Witness for C10 at a concrete input: the document `color: Red` with no
`type_name` key, against the program's initialized registry. -/
theorem decode_missingTypeName_unknown_witness :
    ¬ ("type_name" ∈ List.map Prod.fst [("color", JValue.str "Red")]) ∧
    rlookup Registry (TypeMeta.mk "") = none ∧
    (unmarshalTypeMeta (JValue.obj [("color", JValue.str "Red")]) =
        Except.ok (TypeMeta.mk "") ∧
      docProcess Registry (JValue.obj [("color", JValue.str "Red")]) =
        Except.error (DecodeError.unknownType "") ∧
      (∀ (meta : TypeMeta) (obj : RType) (r : ObjectRegistry),
        rlookup r (TypeMeta.mk "") = none →
        rlookup (registerObject meta obj r).2 (TypeMeta.mk "") = none)) :=
  ⟨by simp, by decide,
    decode_missingTypeName_unknown [("color", JValue.str "Red")] Registry (by simp) (by decide)⟩

/-- Modelled from the spec: the repository contains no encoder, so the
"encoding v to a document" half of the round-trip property is modelled
here. `encode` emits the JSON document that marshalling the structs of
objects.go produces under their field tags (`type_name,omitempty` from the
inline TypeMeta, `color`, `ripe`); for a generic object only the embedded
TypeMeta is modelled. -/
def encode : Obj → JValue
  | Obj.apple a =>
    JValue.obj
      ((if a.typeMeta.TypeName = "" then []
        else [("type_name", JValue.str a.typeMeta.TypeName)]) ++
        [("color", JValue.str a.Color)])
  | Obj.banana b =>
    JValue.obj
      ((if b.typeMeta.TypeName = "" then []
        else [("type_name", JValue.str b.typeMeta.TypeName)]) ++
        [("ripe", JValue.bool b.Ripe)])
  | Obj.generic _ m =>
    JValue.obj (if m.TypeName = "" then [] else [("type_name", JValue.str m.TypeName)])

/-- C3: for each registered shape of the repository (Apple and Banana,
registered by objects.go's init) and every valid instance of it (one whose
embedded tag is the tag the shape is registered under), encoding the
instance to a document and decoding that single-document stream with the
program's registry yields the one-element sequence holding an object equal
to the instance in all fields, including the embedded type tag. -/
theorem decode_encode_roundTrip (o : Obj)
    (h : (∃ c, o = Obj.apple (Apple.mk AppleTypeMeta c)) ∨
      (∃ x, o = Obj.banana (Banana.mk BananaTypeMeta x))) :
    Decode [StreamItem.doc (encode o)] = Except.ok [o] := by
  rcases h with ⟨c, rfl⟩ | ⟨x, rfl⟩
  · rfl
  · rfl

/-- Witness for C3 at a concrete input: the red Apple instance. -/
theorem decode_encode_roundTrip_witness :
    ((∃ c, Obj.apple (Apple.mk AppleTypeMeta "Red") = Obj.apple (Apple.mk AppleTypeMeta c)) ∨
      (∃ x, Obj.apple (Apple.mk AppleTypeMeta "Red") = Obj.banana (Banana.mk BananaTypeMeta x))) ∧
    Decode [StreamItem.doc (encode (Obj.apple (Apple.mk AppleTypeMeta "Red")))] =
      Except.ok [Obj.apple (Apple.mk AppleTypeMeta "Red")] :=
  ⟨Or.inl ⟨"Red", rfl⟩, decode_encode_roundTrip _ (Or.inl ⟨"Red", rfl⟩)⟩
